import Mathlib

/-
Verification of the differential fuzz harness `src/scripts/fuzz.js` against
its specification.  The harness drives an external Bitcoin-style script
engine; the harness's own logic (oracle plumbing, generator invariants,
flag presets, loop control flow) is embedded below.  Parts of the script
library that the repository does not ship (`lib/script/*`, `lib/primitives/*`)
are modelled from the specification and marked as such in their doc
comments.  Random draws made by the harness (`util.random`, `randomBytes`)
are represented as explicit parameters, so theorems quantify over every
possible draw.  JavaScript exceptions are represented with `Except`.
-/

namespace Fuzz

/-- Byte strings are lists of naturals (each intended to be < 256). -/
abbrev Bytes := List Nat

namespace opcodes

/-- Modelled from the spec: the opcode table of the script library
(`lib/script/script.js`, referenced by the harness as `Script.opcodes` but
not shipped under `src/`).  Values are the canonical Bitcoin script opcode
bytes that §4.1 of the spec refers to ("all other bytes map 1:1 to a named
opcode"). -/
def ZERO : Nat := 0x00

/-- First PUSHDATA opcode: one-byte length prefix (spec §4.1). -/
def PUSHDATA1 : Nat := 0x4c

/-- PUSHDATA with a two-byte little-endian length prefix (spec §4.1). -/
def PUSHDATA2 : Nat := 0x4d

/-- PUSHDATA with a four-byte little-endian length prefix (spec §4.1). -/
def PUSHDATA4 : Nat := 0x4e

/-- Opcode pushing the number -1 (encoded 0x81). -/
def ONENEGATE : Nat := 0x4f

/-- Opcode pushing the small number 1. -/
def ONE : Nat := 0x51

/-- Opcode pushing the small number 16; the largest push-class opcode. -/
def SIXTEEN : Nat := 0x60

/-- The no-operation opcode, `Script.opcodes.NOP` in the harness. -/
def NOP : Nat := 0x61

/-- Stack-duplication opcode, used by the pay-to-pubkey-hash template. -/
def DUP : Nat := 0x76

/-- Equality-check opcode, used by the pay-to-script-hash template. -/
def EQUAL : Nat := 0x87

/-- Equality-check-and-verify opcode. -/
def EQUALVERIFY : Nat := 0x88

/-- The hash160 opcode, used by the pay-to-script-hash template. -/
def HASH160 : Nat := 0xa9

/-- Signature-check opcode. -/
def CHECKSIG : Nat := 0xac

/-- Multi-signature-check opcode. -/
def CHECKMULTISIG : Nat := 0xae

/-- Upgradable no-operation opcode 1, `Script.opcodes.NOP_1` (0xb0). -/
def NOP_1 : Nat := 0xb0

/-- Upgradable no-operation opcode 3, `Script.opcodes.NOP_3`
(0xb2, aliased to OP_CHECKSEQUENCEVERIFY). -/
def NOP_3 : Nat := 0xb2

end opcodes

/-- Modelled from the spec (§2, §4.1): a script operation is "an opcode or a
length-prefixed data push"; the parser distinguishes the four push
encodings (direct length byte, PUSHDATA1/2/4), so the value type records
which encoding a push used — this is what makes the §8 round-trip identity
hold. -/
inductive Op where
  | code : Nat → Op
  | push : Bytes → Op
  | pushdata1 : Bytes → Op
  | pushdata2 : Bytes → Op
  | pushdata4 : Bytes → Op
deriving DecidableEq, Repr

/-- Little-endian encoding of `n` on `w` bytes (spec §4.1: PUSHDATA length
prefixes are little-endian). -/
def encLE : Nat → Nat → Bytes
  | 0, _ => []
  | w + 1, n => n % 256 :: encLE w (n / 256)

/-- Modelled from the spec (§4.1): serialization of one operation.  A byte
in [0x01,0x4b] denotes a direct push of that many following bytes;
OP_PUSHDATA1/2/4 use 1/2/4-byte little-endian length prefixes; every other
byte stands for itself. -/
def Op.serialize : Op → Bytes
  | .code b => [b]
  | .push d => d.length :: d
  | .pushdata1 d => opcodes.PUSHDATA1 :: d.length :: d
  | .pushdata2 d => opcodes.PUSHDATA2 :: (encLE 2 d.length ++ d)
  | .pushdata4 d => opcodes.PUSHDATA4 :: (encLE 4 d.length ++ d)

/-- Well-formedness of one operation: the recorded encoding can actually
carry the data (spec §3: pushes are 0–520 bytes, and §4.1 fixes which first
byte introduces which encoding).  A plain opcode byte must not collide with
the push-introducing bytes [0x01,0x4e]. -/
def Op.wf : Op → Bool
  | .code b => decide (b = 0 ∨ (opcodes.ONENEGATE ≤ b ∧ b ≤ 0xff))
  | .push d => decide (1 ≤ d.length ∧ d.length ≤ 0x4b)
  | .pushdata1 d => decide (d.length ≤ 0xff)
  | .pushdata2 d => decide (d.length ≤ 0xffff)
  | .pushdata4 d => decide (d.length ≤ 0xffffffff)

/-- The opcode byte of an operation, bcoin's `op.value`: for a direct push
it is the length byte, for PUSHDATA it is the PUSHDATA opcode itself. -/
def Op.value : Op → Nat
  | .code b => b
  | .push d => d.length
  | .pushdata1 _ => opcodes.PUSHDATA1
  | .pushdata2 _ => opcodes.PUSHDATA2
  | .pushdata4 _ => opcodes.PUSHDATA4

/-- The data an operation pushes, when it is a push: data pushes carry
their bytes, OP_0 pushes the empty string, OP_1..OP_16 push one small
byte, OP_1NEGATE pushes 0x81; other opcodes push nothing. -/
def Op.pushData? : Op → Option Bytes
  | .code b =>
      if b = 0 then some []
      else if b = opcodes.ONENEGATE then some [0x81]
      else if opcodes.ONE ≤ b ∧ b ≤ opcodes.SIXTEEN then some [b - 0x50]
      else none
  | .push d => some d
  | .pushdata1 d => some d
  | .pushdata2 d => some d
  | .pushdata4 d => some d

/-- The Script value type (spec §3): an immutable ordered sequence of
operations. -/
structure Script where
  ops : List Op
deriving DecidableEq, Repr

/-- Serialization of a whole script (bcoin `script.toRaw()`), the
concatenation of its operations' serializations (spec §4.1). -/
def Script.toRaw (s : Script) : Bytes := (s.ops.map Op.serialize).flatten

/-- Well-formedness of a script: every operation is well-formed. -/
def Script.wf (s : Script) : Bool := s.ops.all Op.wf

/-- Take `n` bytes off the front of a byte string, failing when fewer than
`n` remain (spec §4.1: "a push whose declared length overruns the buffer"
is malformed). -/
def readBytes (n : Nat) (bs : Bytes) : Option (Bytes × Bytes) :=
  if n ≤ bs.length then some (bs.take n, bs.drop n) else none

/-- Modelled from the spec (§4.1): the script parser.  Consume bytes
left-to-right; a byte in [0x01,0x4b] is a direct push of that many
following bytes, OP_PUSHDATA1/2/4 read a 1/2/4-byte little-endian length
then that many bytes, every other byte is an opcode.  The first argument
is recursion fuel; one byte is consumed per operation at least, so fuel
equal to the input length always suffices. -/
def parseOps : Nat → Bytes → Option (List Op)
  | _, [] => some []
  | 0, _ :: _ => none
  | fuel + 1, b :: rest =>
    if 1 ≤ b ∧ b ≤ 0x4b then
      match readBytes b rest with
      | none => none
      | some (d, rest1) => (parseOps fuel rest1).map (fun ops => Op.push d :: ops)
    else if b = opcodes.PUSHDATA1 then
      match rest with
      | [] => none
      | l :: rest1 =>
        match readBytes l rest1 with
        | none => none
        | some (d, rest2) => (parseOps fuel rest2).map (fun ops => Op.pushdata1 d :: ops)
    else if b = opcodes.PUSHDATA2 then
      match rest with
      | l0 :: l1 :: rest1 =>
        match readBytes (l0 + 256 * l1) rest1 with
        | none => none
        | some (d, rest2) => (parseOps fuel rest2).map (fun ops => Op.pushdata2 d :: ops)
      | _ => none
    else if b = opcodes.PUSHDATA4 then
      match rest with
      | l0 :: l1 :: l2 :: l3 :: rest1 =>
        match readBytes (l0 + 256 * l1 + 65536 * l2 + 16777216 * l3) rest1 with
        | none => none
        | some (d, rest2) => (parseOps fuel rest2).map (fun ops => Op.pushdata4 d :: ops)
      | _ => none
    else
      (parseOps fuel rest).map (fun ops => Op.code b :: ops)

/-- Parsing a raw byte string into a script (bcoin `Script.fromRaw`),
spec §4.1. -/
def Script.fromRaw (bs : Bytes) : Option Script :=
  (parseOps bs.length bs).map Script.mk

/-- Modelled from the spec: bcoin's `Opcode.fromData` / `pushData`, the
minimal push encoding of a byte string (spec §4.1 "minimal push policy":
smallest encoding for small values). -/
def pushOf (d : Bytes) : Op :=
  match d with
  | [] => .code 0
  | [n] =>
    if 1 ≤ n ∧ n ≤ 16 then .code (0x50 + n)
    else if n = 0x81 then .code opcodes.ONENEGATE
    else .push [n]
  | _ =>
    if d.length ≤ 0x4b then .push d
    else if d.length ≤ 0xff then .pushdata1 d
    else if d.length ≤ 0xffff then .pushdata2 d
    else .pushdata4 d

/-- Modelled from the spec (§4.4): the pay-to-script-hash output template,
bcoin `Script.fromScripthash(hash)`: OP_HASH160, a 20-byte hash push,
OP_EQUAL. -/
def Script.fromScripthash (h : Bytes) : Script :=
  ⟨[.code opcodes.HASH160, pushOf h, .code opcodes.EQUAL]⟩

/-- Modelled from the spec (§4.4): the witness-program output template,
bcoin `Script.fromProgram(version, data)`: a small-number opcode for the
version followed by a push of the program bytes. -/
def Script.fromProgram (version : Nat) (data : Bytes) : Script :=
  ⟨[if version = 0 then Op.code 0 else Op.code (0x50 + version), pushOf data]⟩

/-- Modelled from the spec (§4.4): extract the 20-byte redeem-script hash
embedded in a pay-to-script-hash output (OP_HASH160, a direct 20-byte
push, OP_EQUAL). -/
def Script.getScripthash (s : Script) : Option Bytes :=
  match s.ops with
  | [.code a, .push h, .code b] =>
    if a = opcodes.HASH160 ∧ b = opcodes.EQUAL ∧ h.length = 20 then some h else none
  | _ => none

/-- Modelled from the spec (§4.4): decompose a witness-program output into
its version and program bytes (version opcode OP_0 or OP_1..OP_16 followed
by a direct push of 2–40 bytes). -/
def Script.getProgram (s : Script) : Option (Nat × Bytes) :=
  match s.ops with
  | [.code v, .push d] =>
    if (v = 0 ∨ (opcodes.ONE ≤ v ∧ v ≤ opcodes.SIXTEEN)) ∧ 2 ≤ d.length ∧ d.length ≤ 40 then
      some (if v = 0 then 0 else v - 0x50, d)
    else none
  | _ => none

/-- Modelled from the spec: the script library's genuine push-only test,
bcoin `script.isPushOnly()` — every operation's opcode byte is at most
OP_16, i.e. every operation is a data push or small-number push. -/
def Script.isPushOnly (s : Script) : Bool :=
  s.ops.all (fun op => decide (op.value ≤ opcodes.SIXTEEN))

/-- Modelled from the spec (§1): `hash160` is supplied by an external
cryptographic library; bcoin's `script.hash160()` hashes the script's
serialization.  The hash function itself is a parameter. -/
def Script.hash160 (h : Bytes → Bytes) (s : Script) : Bytes := h s.toRaw

/-- Modelled from the spec (§1): `sha256` is supplied by an external
cryptographic library; bcoin's `script.sha256()` hashes the script's
serialization.  The hash function itself is a parameter. -/
def Script.sha256As (h : Bytes → Bytes) (s : Script) : Bytes := h s.toRaw

/-- A witness (spec §3): an ordered sequence of stack elements supplied
out-of-band from the input script. -/
abbrev Witness := List Bytes

/-- The value stack of the stack machine (spec §3): a sequence of byte
strings; elements are pushed at the end, so the top of the stack is the
last list entry (mirroring bcoin's array-backed `Stack`, where index -1 is
the top). -/
abbrev Stack := List Bytes

/-- Modelled from the spec (§4.2): truthiness of a stack element — "truthy
= any non-zero byte string". -/
def toBool (item : Bytes) : Bool := item.any (fun b => b != 0)

/-- The harness's `stack.getBool(-1)`: truthiness of the top (last)
element; an empty stack has no truthy top. -/
def Stack.getBoolTop (s : Stack) : Bool :=
  match s.getLast? with
  | some item => toBool item
  | none => false

/-- A transaction input as the harness uses it (`lib/primitives/input`,
modelled from the spec §3's transaction context: outpoint, script,
witness, sequence). -/
structure TXInput where
  prevoutHash : Bytes
  prevoutIndex : Nat
  script : Script
  witness : Witness
  sequence : Nat
deriving DecidableEq, Repr

/-- A transaction output (`lib/primitives/output`): value and script. -/
structure TXOutput where
  value : Nat
  script : Script
deriving DecidableEq, Repr

/-- A transaction (`lib/primitives/tx`), the minimal read-only view of
spec §3. -/
structure TX where
  version : Nat
  inputs : List TXInput
  outputs : List TXOutput
  locktime : Nat
deriving DecidableEq, Repr

/-- Length-prefixed byte-string encoding, a helper for the modelled
transaction codec. -/
def encBytes (b : Bytes) : Bytes := encLE 4 b.length ++ b

/-- Modelled from the spec (§1, §6): the raw transaction byte encoding is
an external codec "consumed, not owned by the core"; it is modelled as the
length-prefixed concatenation of the transaction's fields.  Claims about
the harness use only that `tx.toRaw()` is passed through unchanged, never
the encoding's internals. -/
def TXInput.toRawModel (i : TXInput) : Bytes :=
  encBytes i.prevoutHash ++ encLE 4 i.prevoutIndex ++ encBytes i.script.toRaw ++ encLE 4 i.sequence

/-- Modelled from the spec (§1, §6): raw encoding of one output, part of
the external transaction codec. -/
def TXOutput.toRawModel (o : TXOutput) : Bytes :=
  encLE 8 o.value ++ encBytes o.script.toRaw

/-- Modelled from the spec (§1, §6): `tx.toRaw()`, the external raw
transaction codec. -/
def TX.toRaw (tx : TX) : Bytes :=
  encLE 4 tx.version ++ encLE 4 tx.inputs.length ++ (tx.inputs.map TXInput.toRawModel).flatten
    ++ encLE 4 tx.outputs.length ++ (tx.outputs.map TXOutput.toRawModel).flatten
    ++ encLE 4 tx.locktime

/-- The in-place update `tx.inputs[0].script = input; tx.inputs[0].witness
= witness; tx.refresh();` performed by `fuzzVerify` and `fuzzLess`
(`refresh` only clears the library's internal caches, so it is the
identity on the modelled value). -/
def TX.setInput0 (tx : TX) (s : Script) (w : Witness) : TX :=
  { tx with
    inputs :=
      match tx.inputs with
      | [] => []
      | i :: rest => { i with script := s, witness := w } :: rest }

/-- The differential oracle (spec §6): `verify(rawTransactionBytes,
inputIndex, rawPrevOutBytes, amount, flags) -> resultCode`. -/
abbrev Oracle := Bytes → Nat → Bytes → Nat → Nat → String

/-- The module-level `consensus` binding of `fuzz.js` (lines 15–21): the
optional oracle module, `none` when `require('nodeconsensus')` fails. -/
abbrev OracleModule := Option Oracle

/-- `verifyConsensus` (fuzz.js lines 29–33): with no oracle loaded it
returns the string OK; otherwise it forwards the raw transaction bytes,
the index, the raw output-script bytes, the value and the flags to the
oracle and returns its code unchanged. -/
def verifyConsensus (consensus : OracleModule) (tx : TX) (index : Nat) (output : Script)
    (value : Nat) (fl : Nat) : String :=
  match consensus with
  | none => "OK"
  | some verify => verify tx.toRaw index output.toRaw value fl

/-- One log line produced through `util.log`: either a literal message, a
dumped object, or a tagged hex dump of raw bytes. -/
inductive LogEntry where
  | msg : String → LogEntry
  | txObj : TX → LogEntry
  | scriptObj : Script → LogEntry
  | witnessObj : Witness → LogEntry
  | stackObj : Stack → LogEntry
  | flagsObj : Nat → LogEntry
  | rawHex : String → Bytes → LogEntry
deriving DecidableEq, Repr

/-- `assertConsensus` (fuzz.js lines 35–50): with no oracle it returns at
once; otherwise it queries the oracle at input index 0 and value 0 and,
when the oracle's code differs from the engine's code, emits the mismatch
log lines.  Its value is the list of log lines it writes — its only
observable effect. -/
def assertConsensus (consensus : OracleModule) (tx : TX) (output : Script) (fl : Nat)
    (code : String) : List LogEntry :=
  match consensus with
  | none => []
  | some _ =>
    let err := verifyConsensus consensus tx 0 output 0 fl
    if err ≠ code then
      [ .msg "bitcoinconsensus mismatch!"
      , .msg (err ++ " (bitcoin core) !== " ++ code ++ " (bcoin)")
      , .txObj tx
      , .scriptObj output
      , .flagsObj fl
      , .rawHex "TX: " tx.toRaw
      , .rawHex "Output Script: " output.toRaw ]
    else []

/-- `randomInputScript` (fuzz.js lines 125–138): push each drawn byte
string with `pushData`, then push the serialized redeem script when one is
given, then compile.  The random draws are the `pushes` parameter. -/
def randomInputScript (pushes : List Bytes) (redeem : Option Bytes) : Script :=
  ⟨(pushes ++ redeem.toList).map pushOf⟩

/-- `randomWitness` (fuzz.js lines 110–123): push each drawn byte string,
then the serialized redeem script when one is given.  The random draws are
the `items` parameter. -/
def randomWitness (items : List Bytes) (redeem : Option Bytes) : Witness :=
  items ++ redeem.toList

/-- A spending context as built by the `random*Context` generators
(fuzz.js lines 241–297). -/
structure SpendContext where
  input : Script
  witness : Witness
  output : Script
  redeem : Option Script
deriving Repr

/-- `randomScripthashContext` (fuzz.js lines 259–267): draw a redeem
script, build a push-only input script whose final push is the serialized
redeem script, an empty witness, and a pay-to-script-hash output embedding
`redeem.hash160()`.  The `randomRedeem()` draw is the `redeem` parameter
and the hash function is the external `hash160`. -/
def randomScripthashContext (h160 : Bytes → Bytes) (redeem : Script)
    (pushes : List Bytes) : SpendContext :=
  { input := randomInputScript pushes (some redeem.toRaw)
    witness := []
    output := Script.fromScripthash (Script.hash160 h160 redeem)
    redeem := some redeem }

/-- `randomWitnessScripthashContext` (fuzz.js lines 278–286): draw a
redeem script, build an empty input script, a witness whose final element
is the serialized redeem script, and a version-0 witness program embedding
`redeem.sha256()`.  The `randomRedeem()` draw is the `redeem` parameter
and the hash function is the external `sha256`. -/
def randomWitnessScripthashContext (sha : Bytes → Bytes) (redeem : Script)
    (items : List Bytes) : SpendContext :=
  { input := ⟨[]⟩
    witness := randomWitness items (some redeem.toRaw)
    output := Script.fromProgram 0 (Script.sha256As sha redeem)
    redeem := some redeem }

/-- The harness's own `isPushOnly` (fuzz.js lines 145–163): true when the
library's push-only test holds, and otherwise when every operation is NOP,
NOP_1, or an opcode numerically greater than NOP_3. -/
def isPushOnly (script : Script) : Bool :=
  if script.isPushOnly then true
  else
    script.ops.all (fun op =>
      op.value == opcodes.NOP || op.value == opcodes.NOP_1
        || decide (op.value > opcodes.NOP_3))

/-- A JavaScript exception as the harness inspects it: a `type` tag
(`'ScriptError'` for categorized script failures) and an error code. -/
structure JsError where
  type : String
  code : String
deriving DecidableEq, Repr

/-- The outcome of one iteration of a fuzz loop: `next` is `continue`
(a non-fatal outcome, the loop draws fresh random inputs), `report` is the
"Produced valid scripts" branch ending in `break`, and `thrown e` is an
exception re-thrown out of the loop, aborting the harness. -/
inductive StepResult where
  | next : StepResult
  | report : StepResult
  | thrown : JsError → StepResult
deriving DecidableEq, Repr

/-- The external script engine's `script.execute(stack, flags, tx, index,
value, version)` (spec §4.2), as a parameter: it returns the updated stack
or raises a `JsError`. -/
abbrev ExecuteFn := Script → Stack → Nat → TX → Nat → Nat → Nat → Except JsError Stack

/-- The external verification orchestrator `Script.verify(input, witness,
output, tx, index, value, flags)` (spec §4.5), as a parameter: it returns
unit or raises a `JsError`. -/
abbrev VerifyFn := Script → Witness → Script → TX → Nat → Nat → Nat → Except JsError Unit

/-- One iteration of `fuzzSimple` (fuzz.js lines 317–371) after the fresh
random draws: run the input script on a new stack, then the output script
on the same stack, both at index 0, value 0, version 0; a ScriptError
continues the loop, any other exception is re-thrown; on success the
result must be a non-empty stack with a truthy top and a non-push-only
output script for the report branch to run. -/
def fuzzSimpleStep (execute : ExecuteFn) (fl : Nat) (tx : TX) (input output : Script) :
    StepResult × List LogEntry :=
  match execute input [] fl tx 0 0 0 with
  | .error e => if e.type = "ScriptError" then (.next, []) else (.thrown e, [])
  | .ok stack =>
    match execute output stack fl tx 0 0 0 with
    | .error e => if e.type = "ScriptError" then (.next, []) else (.thrown e, [])
    | .ok stack2 =>
      if stack2.length = 0 then (.next, [])
      else if Stack.getBoolTop stack2 = false then (.next, [])
      else if isPushOnly output then (.next, [])
      else
        (.report,
          [ .msg "Produced valid scripts:"
          , .msg "Input:", .scriptObj input
          , .msg "Output:", .scriptObj output
          , .msg "Stack:", .stackObj stack2 ])

/-- One iteration of `fuzzVerify` (fuzz.js lines 373–429) after the fresh
random draws: install the input script and witness on the transaction's
first input, call the engine's `Script.verify` at index 0, value 0; a
ScriptError is cross-checked against the oracle and continues the loop,
any other exception is re-thrown; success is cross-checked against code
OK and reported unless the output script is accepted by the harness's
`isPushOnly`. -/
def fuzzVerifyStep (verify : VerifyFn) (consensus : OracleModule) (fl : Nat) (tx : TX)
    (input : Script) (witness : Witness) (output : Script) : StepResult × List LogEntry :=
  let tx1 := tx.setInput0 input witness
  match verify input witness output tx1 0 0 fl with
  | .error e =>
    if e.type = "ScriptError" then (.next, assertConsensus consensus tx1 output fl e.code)
    else (.thrown e, [])
  | .ok _ =>
    let logs := assertConsensus consensus tx1 output fl "OK"
    if isPushOnly output then (.next, logs)
    else
      (.report, logs ++
        [ .msg "Produced valid scripts:"
        , .msg "Input:", .scriptObj input
        , .msg "Witness:", .witnessObj witness
        , .msg "Output:", .scriptObj output ])

/-- One iteration of `fuzzLess` (fuzz.js lines 431–488) after the fresh
random draws: install the drawn context's input script and witness on the
transaction's first input, call `Script.verify` at index 0, value 0; a
ScriptError is cross-checked against the oracle and continues the loop,
any other exception is re-thrown; success is cross-checked against code
OK and always reported. -/
def fuzzLessStep (verify : VerifyFn) (consensus : OracleModule) (fl : Nat) (tx : TX)
    (ctx : SpendContext) : StepResult × List LogEntry :=
  let tx1 := tx.setInput0 ctx.input ctx.witness
  match verify ctx.input ctx.witness ctx.output tx1 0 0 fl with
  | .error e =>
    if e.type = "ScriptError" then (.next, assertConsensus consensus tx1 ctx.output fl e.code)
    else (.thrown e, [])
  | .ok _ =>
    (.report, assertConsensus consensus tx1 ctx.output fl "OK" ++
      [ .msg "Produced valid scripts:"
      , .msg "Input:", .scriptObj ctx.input
      , .msg "Witness:", .witnessObj ctx.witness
      , .msg "Output:", .scriptObj ctx.output ] ++
      (match ctx.redeem with
       | some r => [LogEntry.msg "Redeem:", LogEntry.scriptObj r]
       | none => []))

namespace flags

/-- Modelled from the spec (§6): the individually documented verification
flag bits of the script library (`Script.flags`, not shipped under
`src/`), one bit each in the library's declaration order. -/
def VERIFY_NONE : Nat := 0

/-- The P2SH rule bit (spec §6). -/
def VERIFY_P2SH : Nat := 1 <<< 0

/-- The strict-encoding rule bit (spec §6). -/
def VERIFY_STRICTENC : Nat := 1 <<< 1

/-- The DER-signature rule bit (spec §6). -/
def VERIFY_DERSIG : Nat := 1 <<< 2

/-- The low-S rule bit (spec §6). -/
def VERIFY_LOW_S : Nat := 1 <<< 3

/-- The null-dummy rule bit (spec §6). -/
def VERIFY_NULLDUMMY : Nat := 1 <<< 4

/-- The signature-push-only rule bit (spec §6). -/
def VERIFY_SIGPUSHONLY : Nat := 1 <<< 5

/-- The minimal-data rule bit (spec §6). -/
def VERIFY_MINIMALDATA : Nat := 1 <<< 6

/-- The discourage-upgradable-NOPs rule bit (spec §6). -/
def VERIFY_DISCOURAGE_UPGRADABLE_NOPS : Nat := 1 <<< 7

/-- The clean-stack rule bit (spec §6). -/
def VERIFY_CLEANSTACK : Nat := 1 <<< 8

/-- The checklocktimeverify rule bit (spec §6). -/
def VERIFY_CHECKLOCKTIMEVERIFY : Nat := 1 <<< 9

/-- The checksequenceverify rule bit (spec §6). -/
def VERIFY_CHECKSEQUENCEVERIFY : Nat := 1 <<< 10

/-- The witness rule bit (spec §6). -/
def VERIFY_WITNESS : Nat := 1 <<< 11

/-- The discourage-upgradable-witness-program rule bit (spec §6). -/
def VERIFY_DISCOURAGE_UPGRADABLE_WITNESS_PROGRAM : Nat := 1 <<< 12

/-- The minimal-if rule bit (spec §6). -/
def VERIFY_MINIMALIF : Nat := 1 <<< 13

/-- The null-fail rule bit (spec §6). -/
def VERIFY_NULLFAIL : Nat := 1 <<< 14

/-- The witness-pubkey-type rule bit (spec §6). -/
def VERIFY_WITNESS_PUBKEYTYPE : Nat := 1 <<< 15

/-- Modelled from the spec (§6): the consensus preset, the "smallest
consensus-critical subset" — in the library it is the P2SH bit alone. -/
def MANDATORY_VERIFY_FLAGS : Nat := VERIFY_P2SH

/-- Modelled from the spec (§6): the relay-policy preset, a superset of
the mandatory preset carrying every policy bit, the witness bit
included. -/
def STANDARD_VERIFY_FLAGS : Nat :=
  MANDATORY_VERIFY_FLAGS
    ||| VERIFY_DERSIG
    ||| VERIFY_STRICTENC
    ||| VERIFY_MINIMALDATA
    ||| VERIFY_NULLDUMMY
    ||| VERIFY_DISCOURAGE_UPGRADABLE_NOPS
    ||| VERIFY_CLEANSTACK
    ||| VERIFY_MINIMALIF
    ||| VERIFY_NULLFAIL
    ||| VERIFY_CHECKLOCKTIMEVERIFY
    ||| VERIFY_CHECKSEQUENCEVERIFY
    ||| VERIFY_LOW_S
    ||| VERIFY_WITNESS
    ||| VERIFY_DISCOURAGE_UPGRADABLE_WITNESS_PROGRAM
    ||| VERIFY_WITNESS_PUBKEYTYPE

end flags

/-- The harness's MANDATORY bitset (fuzz.js line 26): the consensus preset
with the witness bit additionally set. -/
def MANDATORY : Nat := flags.MANDATORY_VERIFY_FLAGS ||| flags.VERIFY_WITNESS

/-- The harness's STANDARD bitset (fuzz.js line 27): the library's
relay-policy preset unchanged. -/
def STANDARD : Nat := flags.STANDARD_VERIFY_FLAGS

/-! Helper lemmas about the byte-level codec, shared by the round-trip
development. -/

theorem take_append_exact (d rest : Bytes) : (d ++ rest).take d.length = d := by
  induction d with
  | nil => rfl
  | cons a t ih => simp [List.take, ih]

theorem drop_append_exact (d rest : Bytes) : (d ++ rest).drop d.length = rest := by
  induction d with
  | nil => rfl
  | cons a t ih => simp only [List.length_cons, List.cons_append, List.drop_succ_cons]; exact ih

theorem readBytes_append (d rest : Bytes) : readBytes d.length (d ++ rest) = some (d, rest) := by
  have hle : d.length ≤ (d ++ rest).length := by
    simp [List.length_append]
  simp [readBytes, hle, take_append_exact, drop_append_exact]

theorem parseOps_nil (fuel : Nat) : parseOps fuel [] = some [] := by
  cases fuel <;> rfl

theorem parseOps_cons (op : Op) (hwf : Op.wf op = true) (fuel : Nat) (rest : Bytes) :
    parseOps (fuel + 1) (Op.serialize op ++ rest) =
      (parseOps fuel rest).map (fun ops => op :: ops) := by
  cases op with
  | code b =>
    have hb : b = 0 ∨ (0x4f ≤ b ∧ b ≤ 0xff) := by
      simp only [Op.wf, opcodes.ONENEGATE, decide_eq_true_eq] at hwf
      exact hwf
    have h1 : ¬(1 ≤ b ∧ b ≤ 0x4b) := by omega
    have h2 : b ≠ opcodes.PUSHDATA1 := by simp only [opcodes.PUSHDATA1]; omega
    have h3 : b ≠ opcodes.PUSHDATA2 := by simp only [opcodes.PUSHDATA2]; omega
    have h4 : b ≠ opcodes.PUSHDATA4 := by simp only [opcodes.PUSHDATA4]; omega
    simp [Op.serialize, parseOps, h1, h2, h3, h4]
  | push d =>
    have hd : 1 ≤ d.length ∧ d.length ≤ 0x4b := by
      simpa [Op.wf] using hwf
    simp [Op.serialize, parseOps, hd.1, hd.2, readBytes_append]
  | pushdata1 d =>
    simp [Op.serialize, parseOps, opcodes.PUSHDATA1, readBytes_append]
  | pushdata2 d =>
    have hd : d.length ≤ 0xffff := by simpa [Op.wf] using hwf
    have hlen : d.length % 256 + 256 * (d.length / 256 % 256) = d.length := by omega
    simp only [Op.serialize, encLE, List.cons_append, List.nil_append]
    simp [parseOps, opcodes.PUSHDATA1, opcodes.PUSHDATA2, hlen, readBytes_append]
  | pushdata4 d =>
    have hd : d.length ≤ 0xffffffff := by simpa [Op.wf] using hwf
    have hlen : d.length % 256 + 256 * (d.length / 256 % 256)
        + 65536 * (d.length / 256 / 256 % 256)
        + 16777216 * (d.length / 256 / 256 / 256 % 256) = d.length := by omega
    simp only [Op.serialize, encLE, List.cons_append, List.nil_append]
    simp [parseOps, opcodes.PUSHDATA1, opcodes.PUSHDATA2, opcodes.PUSHDATA4, hlen,
      readBytes_append]

theorem parseOps_serialize (ops : List Op) (hall : ∀ op ∈ ops, Op.wf op = true) (k : Nat) :
    parseOps (ops.length + k) ((ops.map Op.serialize).flatten) = some ops := by
  induction ops generalizing k with
  | nil => simpa using parseOps_nil k
  | cons op tail ih =>
    have hop : Op.wf op = true := hall op (List.mem_cons_self op tail)
    have htail : ∀ o ∈ tail, Op.wf o = true := fun o ho => hall o (List.mem_cons_of_mem op ho)
    have hfuel : (op :: tail).length + k = (tail.length + k) + 1 := by
      simp [List.length_cons]; omega
    rw [hfuel]
    simp only [List.map_cons, List.flatten_cons]
    rw [parseOps_cons op hop (tail.length + k), ih htail k]
    rfl

theorem serialize_length_pos (op : Op) : 1 ≤ (Op.serialize op).length := by
  cases op <;> simp [Op.serialize]

theorem ops_length_le_raw (ops : List Op) :
    ops.length ≤ ((ops.map Op.serialize).flatten).length := by
  induction ops with
  | nil => simp
  | cons op tail ih =>
    have := serialize_length_pos op
    simp only [List.map_cons, List.flatten_cons, List.length_append, List.length_cons]
    omega

/-- The minimal push encoding always carries its data: reading the pushed
bytes back out of `pushOf d` yields `d`. -/
theorem pushData_pushOf (d : Bytes) : (pushOf d).pushData? = some d := by
  match d with
  | [] => rfl
  | [n] =>
    by_cases h1 : 1 ≤ n ∧ n ≤ 16
    · have hne : ¬(0x50 + n = 0) := by omega
      have hne2 : ¬(0x50 + n = opcodes.ONENEGATE) := by
        simp only [opcodes.ONENEGATE]; omega
      have hin : opcodes.ONE ≤ 0x50 + n ∧ 0x50 + n ≤ opcodes.SIXTEEN := by
        simp only [opcodes.ONE, opcodes.SIXTEEN]; omega
      have hsub : 0x50 + n - 0x50 = n := by omega
      simp [pushOf, h1, Op.pushData?, hne, hne2, hin, hsub]
    · by_cases h2 : n = 0x81
      · simp [pushOf, h1, h2, Op.pushData?, opcodes.ONENEGATE, opcodes.ONE, opcodes.SIXTEEN]
      · simp [pushOf, h1, h2, Op.pushData?]
  | a :: b :: t =>
    by_cases h1 : t.length ≤ 73
    · simp [pushOf, h1, Op.pushData?]
    · by_cases h2 : t.length ≤ 253
      · simp [pushOf, h1, h2, Op.pushData?]
      · by_cases h3 : t.length ≤ 65533
        · simp [pushOf, h1, h2, h3, Op.pushData?]
        · simp [pushOf, h1, h2, h3, Op.pushData?]

/-- For data of at least two and at most 75 bytes the minimal push
encoding is a direct push. -/
theorem pushOf_eq_push (d : Bytes) (h2 : 2 ≤ d.length) (h75 : d.length ≤ 0x4b) :
    pushOf d = .push d := by
  match d with
  | [] => simp at h2
  | [n] => simp at h2
  | a :: b :: t =>
    have ht : t.length ≤ 73 := by
      simp only [List.length_cons] at h75
      omega
    simp [pushOf, ht]

/-! Claim theorems. -/

/-- C1: in each of the three fuzz loops, an exception raised by the engine
whose `type` field equals ScriptError is a non-fatal outcome — the loop
continues with the next iteration — while an exception of any other type
is re-thrown, aborting the harness.  The two execute sites of `fuzzSimple`
and the verify sites of `fuzzVerify` and `fuzzLess` are each covered. -/
theorem fuzz_scripterror_nonfatal_other_rethrown :
    (∀ (execute : ExecuteFn) (fl : Nat) (tx : TX) (input output : Script) (e : JsError),
      execute input [] fl tx 0 0 0 = .error e →
        (e.type = "ScriptError" → (fuzzSimpleStep execute fl tx input output).1 = .next) ∧
        (e.type ≠ "ScriptError" → (fuzzSimpleStep execute fl tx input output).1 = .thrown e)) ∧
    (∀ (execute : ExecuteFn) (fl : Nat) (tx : TX) (input output : Script) (st : Stack)
        (e : JsError),
      execute input [] fl tx 0 0 0 = .ok st →
      execute output st fl tx 0 0 0 = .error e →
        (e.type = "ScriptError" → (fuzzSimpleStep execute fl tx input output).1 = .next) ∧
        (e.type ≠ "ScriptError" → (fuzzSimpleStep execute fl tx input output).1 = .thrown e)) ∧
    (∀ (verify : VerifyFn) (c : OracleModule) (fl : Nat) (tx : TX) (input : Script)
        (w : Witness) (output : Script) (e : JsError),
      verify input w output (tx.setInput0 input w) 0 0 fl = .error e →
        (e.type = "ScriptError" → (fuzzVerifyStep verify c fl tx input w output).1 = .next) ∧
        (e.type ≠ "ScriptError" →
          (fuzzVerifyStep verify c fl tx input w output).1 = .thrown e)) ∧
    (∀ (verify : VerifyFn) (c : OracleModule) (fl : Nat) (tx : TX) (ctx : SpendContext)
        (e : JsError),
      verify ctx.input ctx.witness ctx.output (tx.setInput0 ctx.input ctx.witness) 0 0 fl
          = .error e →
        (e.type = "ScriptError" → (fuzzLessStep verify c fl tx ctx).1 = .next) ∧
        (e.type ≠ "ScriptError" → (fuzzLessStep verify c fl tx ctx).1 = .thrown e)) := by
  refine ⟨?_, ?_, ?_, ?_⟩
  · intro execute fl tx input output e h
    constructor
    · intro ht; simp [fuzzSimpleStep, h, ht]
    · intro ht; simp [fuzzSimpleStep, h, ht]
  · intro execute fl tx input output st e h1 h2
    constructor
    · intro ht; simp [fuzzSimpleStep, h1, h2, ht]
    · intro ht; simp [fuzzSimpleStep, h1, h2, ht]
  · intro verify c fl tx input w output e h
    constructor
    · intro ht; simp [fuzzVerifyStep, h, ht]
    · intro ht; simp [fuzzVerifyStep, h, ht]
  · intro verify c fl tx ctx e h
    constructor
    · intro ht; simp [fuzzLessStep, h, ht]
    · intro ht; simp [fuzzLessStep, h, ht]

/-- Witness for C1: with an engine that always raises a ScriptError the
simple loop continues, and with an engine raising any other error type the
error is re-thrown. -/
theorem fuzz_scripterror_nonfatal_other_rethrown_witness :
    (fuzzSimpleStep (fun _ _ _ _ _ _ _ => Except.error ⟨"ScriptError", "X"⟩) 0
      ⟨0, [], [], 0⟩ ⟨[]⟩ ⟨[]⟩).1 = .next ∧
    (fuzzSimpleStep (fun _ _ _ _ _ _ _ => Except.error ⟨"TypeError", "X"⟩) 0
      ⟨0, [], [], 0⟩ ⟨[]⟩ ⟨[]⟩).1 = .thrown ⟨"TypeError", "X"⟩ :=
  ⟨(fuzz_scripterror_nonfatal_other_rethrown.1 _ 0 _ _ _ _ rfl).1 rfl,
   (fuzz_scripterror_nonfatal_other_rethrown.1 _ 0 _ _ _ _ rfl).2 (by decide)⟩

/-- C2: when an oracle is loaded, `assertConsensus` is a pure function
whose entire observable behaviour is its list of log lines: on a mismatch
between the oracle's code and the engine's code it emits exactly the seven
mismatch log lines, otherwise nothing; it never throws and never aborts,
for every transaction, output script, flag set and code. -/
theorem assertConsensus_mismatch_logs_only (v : Oracle) (tx : TX) (output : Script)
    (fl : Nat) (code : String) :
    assertConsensus (some v) tx output fl code =
      (if v tx.toRaw 0 output.toRaw 0 fl ≠ code then
        [ LogEntry.msg "bitcoinconsensus mismatch!"
        , LogEntry.msg (v tx.toRaw 0 output.toRaw 0 fl ++ " (bitcoin core) !== "
            ++ code ++ " (bcoin)")
        , LogEntry.txObj tx
        , LogEntry.scriptObj output
        , LogEntry.flagsObj fl
        , LogEntry.rawHex "TX: " tx.toRaw
        , LogEntry.rawHex "Output Script: " output.toRaw ]
       else []) := rfl

/-- C3: `verifyConsensus` forwards exactly the raw transaction bytes, the
index, the raw output-script bytes, the value and the flags to the oracle
and returns its code unchanged; with no oracle loaded it returns OK on
every input, which makes `assertConsensus` a no-op. -/
theorem verifyConsensus_oracle_contract :
    (∀ (v : Oracle) (tx : TX) (index : Nat) (output : Script) (value fl : Nat),
      verifyConsensus (some v) tx index output value fl
        = v tx.toRaw index output.toRaw value fl) ∧
    (∀ (tx : TX) (index : Nat) (output : Script) (value fl : Nat),
      verifyConsensus none tx index output value fl = "OK") ∧
    (∀ (tx : TX) (output : Script) (fl : Nat) (code : String),
      assertConsensus none tx output fl code = []) :=
  ⟨fun _ _ _ _ _ _ => rfl, fun _ _ _ _ _ => rfl, fun _ _ _ _ => rfl⟩

/-- C4: the harness's STANDARD bitset is a superset of its MANDATORY
bitset (the consensus preset with the witness bit additionally set): their
union is STANDARD, equivalently every bit set in MANDATORY is set in
STANDARD. -/
theorem standard_superset_of_mandatory :
    MANDATORY ||| STANDARD = STANDARD ∧
    ∀ i : Nat, MANDATORY.testBit i = true → STANDARD.testBit i = true := by
  have hor : MANDATORY ||| STANDARD = STANDARD := by decide
  refine ⟨hor, fun i hi => ?_⟩
  have := congrArg (fun n => n.testBit i) hor
  simpa [Nat.testBit_or, hi] using this

/-- Witness for C4: bit 11 (the witness bit) is set in MANDATORY, hence in
STANDARD. -/
theorem standard_superset_of_mandatory_witness :
    MANDATORY.testBit 11 = true ∧ STANDARD.testBit 11 = true :=
  ⟨by decide, standard_superset_of_mandatory.2 11 (by decide)⟩

/-- C5: every context built by `randomScripthashContext` satisfies the
P2SH spendability precondition — the input script consists only of data
pushes, its final operation pushes exactly the serialized redeem script,
the witness is empty, and the 20-byte hash embedded in the
pay-to-script-hash output is the hash160 of that final pushed element. -/
theorem scripthash_context_spendable (h160 : Bytes → Bytes) (redeem : Script)
    (pushes : List Bytes) (h20 : (h160 redeem.toRaw).length = 20) :
    (∀ op ∈ (randomScripthashContext h160 redeem pushes).input.ops,
      (Op.pushData? op).isSome = true) ∧
    (randomScripthashContext h160 redeem pushes).input.ops.getLast?
      = some (pushOf redeem.toRaw) ∧
    (pushOf redeem.toRaw).pushData? = some redeem.toRaw ∧
    (randomScripthashContext h160 redeem pushes).witness = [] ∧
    (randomScripthashContext h160 redeem pushes).output.getScripthash
      = some (h160 redeem.toRaw) := by
  refine ⟨?_, ?_, pushData_pushOf redeem.toRaw, rfl, ?_⟩
  · intro op hop
    simp only [randomScripthashContext, randomInputScript, List.mem_map] at hop
    obtain ⟨d, _, rfl⟩ := hop
    simp [pushData_pushOf]
  · simp only [randomScripthashContext, randomInputScript, Option.toList]
    rw [List.map_append]
    simp [List.getLast?_concat]
  · have hp : pushOf (h160 redeem.toRaw) = .push (h160 redeem.toRaw) :=
      pushOf_eq_push _ (by rw [h20]; omega) (by rw [h20]; omega)
    simp [randomScripthashContext, Script.fromScripthash, Script.hash160, hp,
      Script.getScripthash, h20, opcodes.HASH160, opcodes.EQUAL]

/-- Witness for C5: the P2SH precondition holds at a concrete hash
function, redeem script and draw. -/
theorem scripthash_context_spendable_witness :
    (∀ op ∈ (randomScripthashContext (fun _ => List.replicate 20 0) ⟨[]⟩ [[5]]).input.ops,
      (Op.pushData? op).isSome = true) ∧
    (randomScripthashContext (fun _ => List.replicate 20 0) ⟨[]⟩ [[5]]).input.ops.getLast?
      = some (pushOf (Script.toRaw ⟨[]⟩)) ∧
    (pushOf (Script.toRaw ⟨[]⟩)).pushData? = some (Script.toRaw ⟨[]⟩) ∧
    (randomScripthashContext (fun _ => List.replicate 20 0) ⟨[]⟩ [[5]]).witness = [] ∧
    (randomScripthashContext (fun _ => List.replicate 20 0) ⟨[]⟩ [[5]]).output.getScripthash
      = some (List.replicate 20 0) :=
  scripthash_context_spendable (fun _ => List.replicate 20 0) ⟨[]⟩ [[5]] (by simp)

/-- C6: every context built by `randomWitnessScripthashContext` satisfies
the native witness-script-hash spendability precondition — the input
script is empty, the final witness element is the serialized redeem
script, and the output is the version-0 witness program whose 32-byte
program is the sha256 of that final witness element. -/
theorem witness_scripthash_context_spendable (sha : Bytes → Bytes) (redeem : Script)
    (items : List Bytes) (h32 : (sha redeem.toRaw).length = 32) :
    (randomWitnessScripthashContext sha redeem items).input.ops = [] ∧
    (randomWitnessScripthashContext sha redeem items).witness.getLast?
      = some redeem.toRaw ∧
    (randomWitnessScripthashContext sha redeem items).output.getProgram
      = some (0, sha redeem.toRaw) := by
  refine ⟨rfl, ?_, ?_⟩
  · simp [randomWitnessScripthashContext, randomWitness, List.getLast?_concat]
  · have hp : pushOf (sha redeem.toRaw) = .push (sha redeem.toRaw) :=
      pushOf_eq_push _ (by rw [h32]; omega) (by rw [h32]; omega)
    simp [randomWitnessScripthashContext, Script.fromProgram, Script.sha256As, hp,
      Script.getProgram, h32]

/-- Witness for C6: the witness-script-hash precondition holds at a
concrete hash function, redeem script and draw. -/
theorem witness_scripthash_context_spendable_witness :
    (randomWitnessScripthashContext (fun _ => List.replicate 32 0) ⟨[]⟩ [[5]]).input.ops = [] ∧
    (randomWitnessScripthashContext (fun _ => List.replicate 32 0) ⟨[]⟩ [[5]]).witness.getLast?
      = some (Script.toRaw ⟨[]⟩) ∧
    (randomWitnessScripthashContext (fun _ => List.replicate 32 0) ⟨[]⟩ [[5]]).output.getProgram
      = some (0, List.replicate 32 0) :=
  witness_scripthash_context_spendable (fun _ => List.replicate 32 0) ⟨[]⟩ [[5]] (by simp)

/-- C7: `fuzzSimple` reaches its report-and-break branch only when both
executions succeed without a ScriptError and the final shared stack is
non-empty with a truthy top; and on a ScriptError, an empty final stack, a
falsy top, or an output script accepted by the harness's push-only test,
the loop continues with fresh scripts. -/
theorem fuzzSimple_report_only_on_success :
    (∀ (execute : ExecuteFn) (fl : Nat) (tx : TX) (input output : Script),
      (fuzzSimpleStep execute fl tx input output).1 = .report →
      ∃ st1 st2, execute input [] fl tx 0 0 0 = .ok st1 ∧
        execute output st1 fl tx 0 0 0 = .ok st2 ∧
        st2.length ≠ 0 ∧ Stack.getBoolTop st2 = true) ∧
    (∀ (execute : ExecuteFn) (fl : Nat) (tx : TX) (input output : Script) (e : JsError),
      (execute input [] fl tx 0 0 0 = .error e ∨
        (∃ st1, execute input [] fl tx 0 0 0 = .ok st1 ∧
          execute output st1 fl tx 0 0 0 = .error e)) →
      e.type = "ScriptError" →
      (fuzzSimpleStep execute fl tx input output).1 = .next) ∧
    (∀ (execute : ExecuteFn) (fl : Nat) (tx : TX) (input output : Script) (st1 st2 : Stack),
      execute input [] fl tx 0 0 0 = .ok st1 →
      execute output st1 fl tx 0 0 0 = .ok st2 →
      (st2.length = 0 ∨ Stack.getBoolTop st2 = false ∨ isPushOnly output = true) →
      (fuzzSimpleStep execute fl tx input output).1 = .next) := by
  refine ⟨?_, ?_, ?_⟩
  · intro execute fl tx input output h
    cases heq1 : execute input [] fl tx 0 0 0 with
    | error e =>
      simp only [fuzzSimpleStep, heq1] at h
      split at h <;> simp_all
    | ok st1 =>
      cases heq2 : execute output st1 fl tx 0 0 0 with
      | error e =>
        simp only [fuzzSimpleStep, heq1, heq2] at h
        split at h <;> simp_all
      | ok st2 =>
        simp only [fuzzSimpleStep, heq1, heq2] at h
        by_cases hlen : st2.length = 0
        · simp [hlen] at h
        · by_cases hbool : Stack.getBoolTop st2 = false
          · simp [hlen, hbool] at h
          · exact ⟨st1, st2, rfl, heq2, hlen, by simpa using hbool⟩
  · intro execute fl tx input output e hsite ht
    rcases hsite with h | ⟨st1, h1, h2⟩
    · simp [fuzzSimpleStep, h, ht]
    · simp [fuzzSimpleStep, h1, h2, ht]
  · intro execute fl tx input output st1 st2 h1 h2 hcase
    rcases hcase with hc | hc | hc
    · simp [fuzzSimpleStep, h1, h2, hc]
    · simp [fuzzSimpleStep, h1, h2, hc]
    · by_cases hl : st2.length = 0
      · simp [fuzzSimpleStep, h1, h2, hl]
      · by_cases hb : Stack.getBoolTop st2 = false
        · simp [fuzzSimpleStep, h1, h2, hl, hb]
        · simp [fuzzSimpleStep, h1, h2, hl, hb, hc]

/-- Witness for C7: with an engine leaving a truthy singleton stack and a
non-push-only output, the report conditions are recovered from the report
outcome. -/
theorem fuzzSimple_report_only_on_success_witness :
    ∃ st1 st2,
      (fun (_ : Script) (_ : Stack) (_ : Nat) (_ : TX) (_ _ _ : Nat) =>
        (Except.ok [[1]] : Except JsError Stack)) ⟨[]⟩ ([] : Stack) 0 ⟨0, [], [], 0⟩ 0 0 0
          = .ok st1 ∧
      (fun (_ : Script) (_ : Stack) (_ : Nat) (_ : TX) (_ _ _ : Nat) =>
        (Except.ok [[1]] : Except JsError Stack)) ⟨[Op.code 0x87]⟩ st1 0 ⟨0, [], [], 0⟩ 0 0 0
          = .ok st2 ∧
      st2.length ≠ 0 ∧ Stack.getBoolTop st2 = true :=
  fuzzSimple_report_only_on_success.1
    (fun _ _ _ _ _ _ _ => Except.ok [[1]]) 0 ⟨0, [], [], 0⟩ ⟨[]⟩ ⟨[Op.code 0x87]⟩ (by decide)

/-- C8: parsing the serialization of any well-formed script yields the
script back — the round-trip identity between the harness's `toRaw` and
the engine's `fromRaw`. -/
theorem parse_serialize_roundtrip (s : Script) (h : s.wf = true) :
    Script.fromRaw s.toRaw = some s := by
  obtain ⟨ops⟩ := s
  have hall : ∀ op ∈ ops, Op.wf op = true := by
    simpa [Script.wf, List.all_eq_true] using h
  have hle := ops_length_le_raw ops
  have hfuel : ((ops.map Op.serialize).flatten).length
      = ops.length + (((ops.map Op.serialize).flatten).length - ops.length) := by omega
  simp only [Script.fromRaw, Script.toRaw]
  rw [hfuel, parseOps_serialize ops hall]
  rfl

/-- Witness for C8: the round trip holds on a concrete well-formed script
exercising every operation shape. -/
theorem parse_serialize_roundtrip_witness :
    Script.wf ⟨[Op.code 0, Op.code 0x61, Op.push [7], Op.pushdata1 [1, 2, 3],
      Op.pushdata2 [4], Op.pushdata4 []]⟩ = true ∧
    Script.fromRaw (Script.toRaw ⟨[Op.code 0, Op.code 0x61, Op.push [7],
      Op.pushdata1 [1, 2, 3], Op.pushdata2 [4], Op.pushdata4 []]⟩)
      = some ⟨[Op.code 0, Op.code 0x61, Op.push [7], Op.pushdata1 [1, 2, 3],
        Op.pushdata2 [4], Op.pushdata4 []]⟩ :=
  ⟨by decide, parse_serialize_roundtrip _ (by decide)⟩

/-- C9: every engine and oracle call a fuzz iteration makes targets input
index 0 with value 0: two engines (respectively two oracles) that agree
whenever they are called at index 0 and value 0 give identical iteration
results, for every flag preset, transaction, script, witness and
context — so no call ever depends on any other index or value. -/
theorem all_calls_target_index0_value0 :
    (∀ (e1 e2 : ExecuteFn) (fl : Nat) (tx : TX) (input output : Script),
      (∀ s st f t, e1 s st f t 0 0 0 = e2 s st f t 0 0 0) →
      fuzzSimpleStep e1 fl tx input output = fuzzSimpleStep e2 fl tx input output) ∧
    (∀ (v1 v2 : VerifyFn) (c : OracleModule) (fl : Nat) (tx : TX) (input : Script)
        (w : Witness) (output : Script),
      (∀ i wt o t f, v1 i wt o t 0 0 f = v2 i wt o t 0 0 f) →
      fuzzVerifyStep v1 c fl tx input w output = fuzzVerifyStep v2 c fl tx input w output) ∧
    (∀ (v1 v2 : VerifyFn) (c : OracleModule) (fl : Nat) (tx : TX) (ctx : SpendContext),
      (∀ i wt o t f, v1 i wt o t 0 0 f = v2 i wt o t 0 0 f) →
      fuzzLessStep v1 c fl tx ctx = fuzzLessStep v2 c fl tx ctx) ∧
    (∀ (o1 o2 : Oracle) (tx : TX) (output : Script) (fl : Nat) (code : String),
      (∀ a b f, o1 a 0 b 0 f = o2 a 0 b 0 f) →
      assertConsensus (some o1) tx output fl code
        = assertConsensus (some o2) tx output fl code) := by
  refine ⟨?_, ?_, ?_, ?_⟩
  · intro e1 e2 fl tx input output h
    simp only [fuzzSimpleStep, h]
  · intro v1 v2 c fl tx input w output h
    simp only [fuzzVerifyStep, h]
  · intro v1 v2 c fl tx ctx h
    simp only [fuzzLessStep, h]
  · intro o1 o2 tx output fl code h
    simp only [assertConsensus, verifyConsensus, h]

/-- Witness for C9: an oracle that answers OK only at index 0 and value 0
is indistinguishable, inside `assertConsensus`, from one that always
answers OK. -/
theorem all_calls_target_index0_value0_witness :
    assertConsensus
      (some (fun _ i _ v _ => if i = 0 ∧ v = 0 then "OK" else "BAD"))
      ⟨0, [], [], 0⟩ ⟨[]⟩ 0 "OK"
      = assertConsensus (some (fun _ _ _ _ _ => "OK")) ⟨0, [], [], 0⟩ ⟨[]⟩ 0 "OK" :=
  all_calls_target_index0_value0.2.2.2
    (fun _ i _ v _ => if i = 0 ∧ v = 0 then "OK" else "BAD")
    (fun _ _ _ _ _ => "OK") ⟨0, [], [], 0⟩ ⟨[]⟩ 0 "OK"
    (fun _ _ _ => by simp)

/-- C10: the harness's `isPushOnly` is weaker than the library's genuine
push-only test — it accepts every genuinely push-only script, accepts
every script whose operations are all NOP, NOP_1, or numerically above
NOP_3 (a pure-NOP script shows the inclusion is strict), and `fuzzSimple`
and `fuzzVerify` suppress their report exactly when it accepts the output
script. -/
theorem harness_isPushOnly_weaker :
    (∀ s : Script, Script.isPushOnly s = true → isPushOnly s = true) ∧
    (∀ s : Script,
      (∀ op ∈ s.ops, op.value = opcodes.NOP ∨ op.value = opcodes.NOP_1
        ∨ op.value > opcodes.NOP_3) →
      isPushOnly s = true) ∧
    (isPushOnly ⟨[Op.code opcodes.NOP]⟩ = true ∧
      Script.isPushOnly ⟨[Op.code opcodes.NOP]⟩ = false) ∧
    (∀ (execute : ExecuteFn) (fl : Nat) (tx : TX) (input output : Script) (st1 st2 : Stack),
      execute input [] fl tx 0 0 0 = .ok st1 →
      execute output st1 fl tx 0 0 0 = .ok st2 →
      st2.length ≠ 0 → Stack.getBoolTop st2 = true →
      ((fuzzSimpleStep execute fl tx input output).1 = .next ↔ isPushOnly output = true)) ∧
    (∀ (verify : VerifyFn) (c : OracleModule) (fl : Nat) (tx : TX) (input : Script)
        (w : Witness) (output : Script),
      verify input w output (tx.setInput0 input w) 0 0 fl = .ok () →
      ((fuzzVerifyStep verify c fl tx input w output).1 = .next ↔ isPushOnly output = true)) := by
  refine ⟨?_, ?_, ⟨by decide, by decide⟩, ?_, ?_⟩
  · intro s h
    simp [isPushOnly, h]
  · intro s h
    simp only [isPushOnly]
    split
    · rfl
    · rw [List.all_eq_true]
      intro op hop
      rcases h op hop with h1 | h1 | h1 <;> simp [h1]
  · intro execute fl tx input output st1 st2 h1 h2 hlen hbool
    cases hpo : isPushOnly output with
    | true => simp [fuzzSimpleStep, h1, h2, hlen, hbool, hpo]
    | false => simp [fuzzSimpleStep, h1, h2, hlen, hbool, hpo]
  · intro verify c fl tx input w output h
    cases hpo : isPushOnly output with
    | true => simp [fuzzVerifyStep, h, hpo]
    | false => simp [fuzzVerifyStep, h, hpo]

/-- Witness for C10: a script made only of upgradable NOPs is accepted by
the harness's predicate. -/
theorem harness_isPushOnly_weaker_witness :
    isPushOnly ⟨[Op.code opcodes.NOP, Op.code opcodes.NOP_1, Op.code 0xb9]⟩ = true :=
  harness_isPushOnly_weaker.2.1 ⟨[Op.code opcodes.NOP, Op.code opcodes.NOP_1, Op.code 0xb9]⟩
    (by decide)

end Fuzz
